import Mathlib

/-!
Verification development for the gdelt-client time-windowed multi-file
retrieval pipeline.  The Python sources (`helpers.py`, `validation.py`,
`api_client.py`, `errors.py`) are shallowly embedded: Python `datetime`
becomes an explicit record of calendar/clock fields, Python strings become
Lean `String`s, fallible code returns `Except`, and the wall clock
(`datetime.now()`) is passed as an explicit parameter.  External
collaborators (the `requests`/`aiohttp` HTTP layer, `json.loads`,
`pandas.read_csv`, `dateutil`) are modelled at their documented interface
boundaries; each such modelling point is marked in the corresponding
doc comment.
-/

deriving instance DecidableEq for Except

/-! ## Python `datetime` model -/

/-- Model of a Python `datetime.datetime` value (microseconds are not used
by any code under verification and are omitted). -/
structure DateTime where
  year : Nat
  month : Nat
  day : Nat
  hour : Nat
  minute : Nat
  second : Nat
deriving DecidableEq, Repr

/-- The `(year, month, day)` triple, i.e. Python `datetime.date()`. -/
def DateTime.dateTriple (dt : DateTime) : Nat × Nat × Nat :=
  (dt.year, dt.month, dt.day)

/-- Comparison key of a datetime: Python compares datetimes
field-lexicographically. -/
def DateTime.key (dt : DateTime) : List Nat :=
  [dt.year, dt.month, dt.day, dt.hour, dt.minute, dt.second]

/-- Lexicographic strict order on equal-length `Nat` lists (Python tuple
comparison). -/
def lexLt : List Nat → List Nat → Bool
  | [], [] => false
  | [], _ :: _ => true
  | _ :: _, [] => false
  | a :: as, b :: bs => a < b || (a == b && lexLt as bs)

/-- Python `datetime` strict `<`. -/
def DateTime.ltB (x y : DateTime) : Bool := lexLt x.key y.key

/-- Python `date()` equality test `dt.date() == now.date()`. -/
def DateTime.dateEqB (x y : DateTime) : Bool :=
  x.dateTriple == y.dateTriple

/-- Python `date()` strict `<` on the `(y, m, d)` triples. -/
def dateTripleLtB (a b : Nat × Nat × Nat) : Bool :=
  lexLt [a.1, a.2.1, a.2.2] [b.1, b.2.1, b.2.2]

/-- Gregorian leap-year rule (as used by Python's `calendar`/`datetime`). -/
def isLeap (y : Nat) : Bool :=
  y % 4 == 0 && (y % 100 != 0 || y % 400 == 0)

/-- Days in a month of the proleptic Gregorian calendar. -/
def daysInMonth (y m : Nat) : Nat :=
  if m = 2 then (if isLeap y then 29 else 28)
  else if m = 4 ∨ m = 6 ∨ m = 9 ∨ m = 11 then 30
  else 31

/-- A datetime whose fields are within the ranges Python's `datetime`
constructor enforces (year capped at 9999 as in Python). -/
def ValidDT (dt : DateTime) : Prop :=
  1 ≤ dt.year ∧ dt.year ≤ 9999 ∧ 1 ≤ dt.month ∧ dt.month ≤ 12 ∧
  1 ≤ dt.day ∧ dt.day ≤ daysInMonth dt.year dt.month ∧
  dt.hour < 24 ∧ dt.minute < 60 ∧ dt.second < 60

instance (dt : DateTime) : Decidable (ValidDT dt) := by
  unfold ValidDT; infer_instance

/-- `d + timedelta(days=1)` restricted to the date fields (the time fields
are carried unchanged, as Python's timedelta addition does). -/
def addOneDay (dt : DateTime) : DateTime :=
  if dt.day < daysInMonth dt.year dt.month then { dt with day := dt.day + 1 }
  else if dt.month < 12 then { dt with month := dt.month + 1, day := 1 }
  else { dt with year := dt.year + 1, month := 1, day := 1 }

/-- The calendar day before `(y, m, d)`. -/
def prevTriple : Nat × Nat × Nat → Nat × Nat × Nat
  | (y, m, d) =>
    if 1 < d then (y, m, d - 1)
    else if 1 < m then (y, m - 1, daysInMonth y (m - 1))
    else (y - 1, 12, 31)

/-! ## `strftime` formatting -/

/-- The ASCII digit character for `n < 10`. -/
def digitChar (n : Nat) : Char := Char.ofNat (48 + n)

/-- Two-digit zero-padded rendering (`%02d`, and `%m`/`%d`/`%H`/`%M`/`%S`
of `strftime`) for `n < 100`. -/
def pad2 (n : Nat) : List Char := [digitChar (n / 10), digitChar (n % 10)]

/-- Four-digit zero-padded rendering (`%Y` for years up to 9999). -/
def pad4 (n : Nat) : List Char :=
  [digitChar (n / 1000), digitChar (n / 100 % 10),
   digitChar (n / 10 % 10), digitChar (n % 10)]

/-- `strftime("%Y%m%d")` on a `(y, m, d)` triple. -/
def strftimeYmd (t : Nat × Nat × Nat) : String :=
  ⟨pad4 t.1 ++ pad2 t.2.1 ++ pad2 t.2.2⟩

/-- `dt.strftime("%Y%m%d")`. -/
def strftimeDate (dt : DateTime) : String := strftimeYmd dt.dateTriple

/-- `dt.strftime("%Y%m%d%H%M%S")`. -/
def strftimeDateTime (dt : DateTime) : String :=
  ⟨pad4 dt.year ++ pad2 dt.month ++ pad2 dt.day ++
   pad2 dt.hour ++ pad2 dt.minute ++ pad2 dt.second⟩

/-- `str(dt)` for a microsecond-free datetime:
`"YYYY-MM-DD HH:MM:SS"` (used inside f-string error messages). -/
def dtStr (dt : DateTime) : String :=
  ⟨pad4 dt.year ++ '-' :: pad2 dt.month ++ '-' :: pad2 dt.day ++
   ' ' :: pad2 dt.hour ++ ':' :: pad2 dt.minute ++ ':' :: pad2 dt.second⟩

/-- `str(d.date())`: `"YYYY-MM-DD"`. -/
def dStr (dt : DateTime) : String :=
  ⟨pad4 dt.year ++ '-' :: pad2 dt.month ++ '-' :: pad2 dt.day⟩

/-! ## Errors

The pipeline raises Python `ValueError` (the builtin, also raised by the
validation layer), transport-level exceptions from the HTTP libraries, the
`HTTPError`/`ClientResponseError` of `raise_for_status`, and parse errors
from `pandas.read_csv`.  `errors.py` defines further `GdeltAPIError`
subclasses, used only on the DOC-API path; no class named
`EmptyResultError` exists anywhere in the repository. -/

inductive GdeltError where
  /-- Python's builtin `ValueError` with its message. -/
  | valueError (msg : String)
  /-- `requests.HTTPError` / `aiohttp.ClientResponseError` raised by
  `raise_for_status`, carrying the response status. -/
  | httpError (status : Nat)
  /-- An exception raised while parsing a downloaded payload
  (`pandas.read_csv` on malformed bytes). -/
  | payloadError (msg : String)
  /-- A transport-level exception from `session.get` (timeout, connection
  error, ...). -/
  | transportError (msg : String)
deriving DecidableEq, Repr

/-- Whether an error is Python's generic builtin `ValueError` (as opposed
to a dedicated exception class of its own). -/
def GdeltError.isGenericValueError : GdeltError → Bool
  | .valueError _ => true
  | _ => false

/-! ## `parse_date` and `validate_date` -/

/-- The `Date = str | datetime` union of `helpers.py`. -/
inductive DateInput where
  | s (text : String)
  | dt (d : DateTime)
deriving DecidableEq, Repr

/-- A date specification as accepted by `search`/`expand_dates`: a single
date or a list of dates. -/
inductive DateSpec where
  | single (d : DateInput)
  | list (ds : List DateInput)
deriving DecidableEq, Repr

/-- Is `c` an ASCII digit? -/
def isDigitChar (c : Char) : Bool := 48 ≤ c.toNat && c.toNat ≤ 57

/-- Numeric value of an ASCII digit. -/
def digitVal (c : Char) : Nat := c.toNat - 48

/-- Modelled: `dateutil.parser.parse` (external library) restricted to the
ISO calendar-date form `"YYYY-MM-DD"`, the only string form exercised by
the specification; `dateutil` rejects strings that do not denote a real
calendar date, which the range checks reproduce. -/
def parseISO (s : String) : Option DateTime :=
  match s.data with
  | [y1, y2, y3, y4, '-', m1, m2, '-', d1, d2] =>
    if isDigitChar y1 && isDigitChar y2 && isDigitChar y3 && isDigitChar y4 &&
       isDigitChar m1 && isDigitChar m2 && isDigitChar d1 && isDigitChar d2 then
      let y := digitVal y1 * 1000 + digitVal y2 * 100 + digitVal y3 * 10 + digitVal y4
      let m := digitVal m1 * 10 + digitVal m2
      let d := digitVal d1 * 10 + digitVal d2
      if 1 ≤ y && 1 ≤ m && m ≤ 12 && 1 ≤ d && d ≤ daysInMonth y m then
        some ⟨y, m, d, 0, 0, 0⟩
      else none
    else none
  | _ => none

/-- `helpers.parse_date`: pass a `datetime` through, parse a string, and
raise `ValueError` if the string cannot be parsed. -/
def parse_date : DateInput → Except GdeltError DateTime
  | .dt d => .ok d
  | .s text =>
    match parseISO text with
    | some d => .ok d
    | none => .error (.valueError ("Cannot parse date: " ++ text))

/-- `helpers.GDELT_V2_START = datetime(2015, 2, 18)`. -/
def GDELT_V2_START : DateTime := ⟨2015, 2, 18, 0, 0, 0⟩

/-- The f-string message for a date in the future. -/
def futureMsg (dt : DateTime) : String :=
  "Date " ++ dtStr dt ++ " is in the future. Please enter a valid date."

/-- The f-string message for a date before the GDELT 2.0 start date. -/
def earlyMsg (dt : DateTime) : String :=
  "Date " ++ dtStr dt ++ " is before GDELT 2.0 start date (" ++
    dStr GDELT_V2_START ++ "). GDELT 2.0 only supports dates from Feb 18, 2015 onwards."

/-- The f-string message for a misordered two-date range. -/
def orderMsg (a b : DateTime) : String :=
  "Start date (" ++ dtStr a ++ ") must be before end date (" ++ dtStr b ++ ")."

/-- The per-date loop of `validate_date`: raise on the first date in the
future or before the GDELT 2.0 start. -/
def checkDates (now : DateTime) : List DateTime → Except GdeltError Unit
  | [] => .ok ()
  | dt :: rest =>
    if now.ltB dt then .error (.valueError (futureMsg dt))
    else if dt.ltB GDELT_V2_START then .error (.valueError (earlyMsg dt))
    else checkDates now rest

/-- The date-parsing step shared by `validate_date`: a single date becomes
a one-element list, a list is parsed element-wise (no ranging here). -/
def parsedDates : DateSpec → Except GdeltError (List DateTime)
  | .single d => (parse_date d).map ([·])
  | .list ds => ds.mapM parse_date

/-- `validation.validate_date`: parses the supplied date(s), rejects any
date in the future or before `GDELT_V2_START`, and rejects a two-element
list whose first element is `>=` its second. -/
def validate_date (date : DateSpec) (now : DateTime) : Except GdeltError Unit := do
  let dates ← parsedDates date
  checkDates now dates
  match dates with
  | [a, b] => if !(a.ltB b) then .error (.valueError (orderMsg a b)) else .ok ()
  | _ => .ok ()

/-! ## `load_json`: the resilient decoder

`helpers.load_json` calls the stdlib `json.loads` and, on a decode error
reporting an offending character position, replaces the character at that
position with a blank and retries, up to `max_recursion_depth` times.

Modelled: `json.loads` (Python stdlib, external collaborator) on the class
of payloads the specification describes — text that is valid apart from
embedded illegal (control) characters.  `json.loads` fails on the first
such character, and its `JSONDecodeError` message ends in `(char N)` from
which the code extracts the offending position `N`; the model carries that
position directly.  The successfully parsed value is represented by the
repaired text. -/

/-- The error raised out of the decode step. -/
inductive JsonErr where
  /-- `json.JSONDecodeError` whose message reports the offending character
  position (a "malformed but fixable" error). -/
  | decodeErr (pos : Nat)
  /-- The terminal `ValueError("Max recursion depth reached while parsing
  JSON.")`. -/
  | maxDepthReached
deriving DecidableEq, Repr

/-- An illegal (unescaped control) character — the class of corruption
`json.loads` rejects with a position-bearing error. -/
def illegalChar (c : Char) : Bool := c.toNat < 32

/-- Position of the first illegal character, as reported by the decode
error message. -/
def firstIllegal : List Char → Option Nat
  | [] => none
  | c :: t => if illegalChar c then some 0 else (firstIllegal t).map (· + 1)

/-- Modelled: `json.loads` on an otherwise-valid payload — succeeds iff no
illegal character remains, else fails at the first one. -/
def jsonLoads (s : List Char) : Except JsonErr (List Char) :=
  match firstIllegal s with
  | some i => .error (.decodeErr i)
  | none => .ok s

/-- `message_str[:idx] + " " + message_str[idx + 1 :]`. -/
def spliceAt (s : List Char) (i : Nat) : List Char :=
  s.take i ++ [' '] ++ s.drop (i + 1)

/-- `helpers.load_json`: attempt a decode; on a position-bearing failure
either raise the terminal error (depth cap reached) or blank out the
offending character and recurse one level deeper. -/
def load_json (s : List Char) (maxDepth : Nat) (depth : Nat) :
    Except JsonErr (List Char) :=
  match jsonLoads s with
  | .ok v => .ok v
  | .error (.decodeErr i) =>
    if h : maxDepth ≤ depth then .error .maxDepthReached
    else load_json (spliceAt s i) maxDepth (depth + 1)
  | .error e => .error e
termination_by maxDepth - depth
decreasing_by omega

/-- Number of illegal characters in a payload = number of repair passes
the decoder needs. -/
def countIllegal (s : List Char) : Nat := (s.filter illegalChar).length

/-- The fully repaired payload: every illegal character blanked. -/
def cleaned (s : List Char) : List Char :=
  s.map (fun c => if illegalChar c then ' ' else c)

/-! ## The temporal window expander (`helpers.expand_dates`) -/

/-- `helpers.get_15min_intervals`: the 96 strings
`f"{h:02d}{m:02d}00"` for `h` in `range(24)`, `m` in `(0, 15, 30, 45)`. -/
def get_15min_intervals : List String :=
  (List.range 24).flatMap fun h =>
    [0, 15, 30, 45].map fun m => (⟨pad2 h ++ pad2 m ++ ['0', '0']⟩ : String)

/-- `now.replace(minute=(now.minute // 15) * 15, second=0, microsecond=0)`:
floor to the enclosing 15-minute interval boundary. -/
def floorTo15 (dt : DateTime) : DateTime :=
  { dt with minute := dt.minute / 15 * 15, second := 0 }

/-- `adjusted -= timedelta(minutes=15)` for a valid datetime: subtract 15
minutes, borrowing through the hour and, across midnight, the calendar
day. -/
def sub15 (dt : DateTime) : DateTime :=
  if 15 ≤ dt.minute then { dt with minute := dt.minute - 15 }
  else if 1 ≤ dt.hour then { dt with hour := dt.hour - 1, minute := dt.minute + 45 }
  else
    let p := prevTriple dt.dateTriple
    { dt with year := p.1, month := p.2.1, day := p.2.2, hour := 23,
              minute := dt.minute + 45 }

/-- The per-day body of the `for dt in dates` loop of
`helpers.expand_dates` (the loop `extend`s/`append`s each day's
contribution onto the result). -/
def expandDay (dt : DateTime) (coverage : Bool) (now : DateTime) : List String :=
  if coverage then
    if dt.dateEqB now then
      let currentInterval := now.hour * 4 + now.minute / 15
      (get_15min_intervals.take (currentInterval + 1)).map
        fun iv => strftimeDate dt ++ iv
    else
      get_15min_intervals.map fun iv => strftimeDate dt ++ iv
  else
    if dt.dateEqB now then [strftimeDateTime (sub15 (floorTo15 now))]
    else [strftimeDate dt ++ "234500"]

/-- Ordering measure on valid dates used only to bound the day-by-day
loop of `date_range`: strictly increases under `addOneDay`. -/
def dateKey (dt : DateTime) : Nat :=
  dt.year * 372 + (dt.month - 1) * 31 + (dt.day - 1)

/-- `current.date() <= end_date` (Python `date` comparison). -/
def dateTripleLeB (a b : Nat × Nat × Nat) : Bool :=
  dateTripleLtB a b || a == b

/-- The `while current.date() <= end_date` loop of `helpers.date_range`,
appending a day and stepping `current += timedelta(days=1)`.  The fuel
argument only bounds the iteration count; for valid dates
`dateKey en + 1 - dateKey start` iterations always suffice, so the model
agrees with the unbounded loop. -/
def dateRangeGo : Nat → DateTime → DateTime → List DateTime
  | 0, _, _ => []
  | fuel + 1, cur, en =>
    if dateTripleLeB cur.dateTriple en.dateTriple then
      cur :: dateRangeGo fuel (addOneDay cur) en
    else []

/-- `datetime.combine(start_dt.date(), time.min)`. -/
def startOfDay (dt : DateTime) : DateTime :=
  { dt with hour := 0, minute := 0, second := 0 }

/-- `helpers.date_range`: parse both endpoints, then walk day-by-day from
the start date while it does not exceed the end date. -/
def date_range (start en : DateInput) : Except GdeltError (List DateTime) := do
  let s ← parse_date start
  let e ← parse_date en
  let cur := startOfDay s
  .ok (dateRangeGo (dateKey e + 1 - dateKey cur) cur e)

/-- The date-normalization step of `helpers.expand_dates`: a single date
is parsed alone, a two-element list becomes an inclusive range, any other
list is parsed element-wise. -/
def normDates : DateSpec → Except GdeltError (List DateTime)
  | .single d => (parse_date d).map ([·])
  | .list [a, b] => date_range a b
  | .list ds => ds.mapM parse_date

/-- `helpers.expand_dates`: normalize the date specification to a day
list, then emit each day's identifiers in order (`now` is the wall clock
`datetime.now()`, lifted to a parameter). -/
def expand_dates (date : DateSpec) (coverage : Bool) (now : DateTime) :
    Except GdeltError (List String) :=
  (normDates date).map fun dates => dates.flatMap (expandDay · coverage now)

/-- The specification's description of the "today, no coverage" rule,
written independently of the code: index the day's 96 intervals, take the
interval containing "now" (the floor), and step back one full interval,
borrowing the previous day's last interval across midnight. -/
def specStepBack (now : DateTime) : DateTime :=
  let idx := now.hour * 4 + now.minute / 15
  if idx = 0 then
    let p := prevTriple now.dateTriple
    ⟨p.1, p.2.1, p.2.2, 23, 45, 0⟩
  else
    ⟨now.year, now.month, now.day, (idx - 1) / 4, (idx - 1) % 4 * 15, 0⟩

/-! ## Tables, URL building -/

/-- `enums.GdeltTable`. -/
inductive GdeltTable where
  | events
  | mentions
  | gkg
deriving DecidableEq, Repr

/-- The per-table file-name suffix of `GdeltClient._build_urls`. -/
def suffixFor (table : GdeltTable) (translation : Bool) : String :=
  match table with
  | .events =>
    if !translation then ".export.CSV.zip" else ".translation.export.CSV.zip"
  | .mentions =>
    if !translation then ".mentions.CSV.zip" else ".translation.mentions.CSV.zip"
  | .gkg =>
    if !translation then ".gkg.csv.zip" else ".translation.gkg.csv.zip"

/-- `GdeltClient.GDELT_BASE_URL`. -/
def GDELT_BASE_URL : String := "http://data.gdeltproject.org/gdeltv2/"

/-- `GdeltClient._build_urls`. -/
def buildUrls (dateStrings : List String) (table : GdeltTable)
    (translation : Bool) : List String :=
  dateStrings.map fun ds => GDELT_BASE_URL ++ ds ++ suffixFor table translation

/-! ## DataFrames, fetch outcomes, the per-item download functions -/

/-- Model of a `pandas.DataFrame` as produced and consumed by the
pipeline: an optional column labelling (`none` = the default integer
labels of a header-less `read_csv`), a column count, and the rows (cells
kept as strings; the events-table dtype overrides force three columns to
string and affect typing only, never shape). -/
structure DF where
  labels : Option (List String)
  ncols : Nat
  rows : List (List String)
deriving DecidableEq, Repr

/-- `df.empty` of pandas: true iff any axis has length 0. -/
def DF.isEmpty (df : DF) : Bool := df.rows.isEmpty || df.ncols == 0

/-- What `pandas.read_csv` (external collaborator) produced from the
downloaded bytes: either a rectangular table of the given width, or a
raised parse exception (bad zip, bad CSV, empty data). -/
inductive Payload where
  | table (ncols : Nat) (rows : List (List String))
  | malformed (msg : String)
deriving DecidableEq, Repr

/-- The outcome of one `session.get(url, timeout=30)` call at the
specification's fetch boundary `fetch(identifier) -> (status, bytes)`:
either a response with a status and body, or a raised transport exception
(timeout, connection error). -/
inductive FetchOutcome where
  | response (status : Nat) (payload : Payload)
  | exn (msg : String)
deriving DecidableEq, Repr

/-- Modelled: `requests.Response.raise_for_status` (external library)
raises `HTTPError` exactly for `400 <= status < 600`. -/
def raiseForStatusSync (status : Nat) : Except GdeltError Unit :=
  if 400 ≤ status ∧ status < 600 then .error (.httpError status) else .ok ()

/-- Modelled: `aiohttp.ClientResponse.raise_for_status` (external library)
raises `ClientResponseError` for every `status >= 400` (no upper bound,
unlike `requests`). -/
def raiseForStatusAio (status : Nat) : Except GdeltError Unit :=
  if 400 ≤ status then .error (.httpError status) else .ok ()

/-- Modelled: `pandas.read_csv` (external collaborator) on the response
body — yields the raw header-less table or raises. -/
def readCsv : Payload → Except GdeltError (Nat × List (List String))
  | .table ncols rows => .ok (ncols, rows)
  | .malformed msg => .error (.payloadError msg)

/-- The column-mismatch warning message of `_parse_gdelt_file`. -/
def mismatchMsg (expected got : Nat) : String :=
  "Column count mismatch: expected " ++ toString expected ++ ", got " ++ toString got

/-- `GdeltClient._parse_gdelt_file`, from the raw table `read_csv`
produced: assign all schema names on an exact width match, all but the
schema's last name when the table is one column short, and otherwise leave
the integer labels and emit a warning.  Returns the frame together with
the warnings emitted. -/
def parseGdeltFile (ncols : Nat) (rows : List (List String))
    (columns : List String) : DF × List String :=
  if ncols = columns.length then
    (⟨some columns, ncols, rows⟩, [])
  else if (ncols : Int) = (columns.length : Int) - 1 then
    (⟨some (columns.take (columns.length - 1)), ncols, rows⟩, [])
  else
    (⟨none, ncols, rows⟩, [mismatchMsg columns.length ncols])

/-- The 404 warning message of `_download_and_parse`. -/
def noDataWarn (url : String) : String := "No data available for URL: " ++ url

/-- The rendering of a caught exception in the
`f"Failed to download {url}: {e}"` warning. -/
def errText : GdeltError → String
  | .valueError msg => msg
  | .httpError status => "HTTP " ++ toString status
  | .payloadError msg => msg
  | .transportError msg => msg

/-- The catch-all warning message of `_download_and_parse`. -/
def failWarn (url : String) (e : GdeltError) : String :=
  "Failed to download " ++ url ++ ": " ++ errText e

/-- The `try` body of `GdeltClient._download_and_parse` (sync): get the
response (a raised transport exception escapes), return the no-data marker
on 404 (with its warning), `raise_for_status`, then parse.  The result
pairs the optional frame with the warnings emitted so far. -/
def downloadBody (url : String) (outcome : FetchOutcome)
    (columns : List String) : Except GdeltError (Option DF × List String) := do
  match outcome with
  | .exn msg => .error (.transportError msg)
  | .response status payload =>
    if status = 404 then .ok (none, [noDataWarn url])
    else do
      raiseForStatusSync status
      let (ncols, rows) ← readCsv payload
      let (df, warns) := parseGdeltFile ncols rows columns
      .ok (some df, warns)

/-- `GdeltClient._download_and_parse`: the body wrapped in
`except Exception: warn(...); return None`. -/
def downloadAndParse (url : String) (outcome : FetchOutcome)
    (columns : List String) : Option DF × List String :=
  match downloadBody url outcome columns with
  | .ok r => r
  | .error e => (none, [failWarn url e])

/-- The `try` body of `GdeltClient._adownload_and_parse` (async): same
steps as the sync body, but `aiohttp`'s `raise_for_status`. -/
def adownloadBody (url : String) (outcome : FetchOutcome)
    (columns : List String) : Except GdeltError (Option DF × List String) := do
  match outcome with
  | .exn msg => .error (.transportError msg)
  | .response status payload =>
    if status = 404 then .ok (none, [noDataWarn url])
    else do
      raiseForStatusAio status
      let (ncols, rows) ← readCsv payload
      let (df, warns) := parseGdeltFile ncols rows columns
      .ok (some df, warns)

/-- `GdeltClient._adownload_and_parse`: the async body wrapped in
`except Exception: warn(...); return None`. -/
def adownloadAndParse (url : String) (outcome : FetchOutcome)
    (columns : List String) : Option DF × List String :=
  match adownloadBody url outcome columns with
  | .ok r => r
  | .error e => (none, [failWarn url e])

/-! ## `search` and `asearch` -/

/-- The `ValueError` both pipelines raise when no identifier produced
data. -/
def noDataError : GdeltError :=
  .valueError "No data returned for the specified date(s)."

/-- `pd.concat(valid_dfs, ignore_index=True)` for frames sharing one
schema: rows concatenated in list order, the row index renumbered
(implicit in the list representation), labels and width taken from the
aligned frames. -/
def concatDFs : List DF → DF
  | [] => ⟨none, 0, []⟩
  | d :: ds => ⟨d.labels, d.ncols, (d :: ds).flatMap DF.rows⟩

/-- The `if results is None or results.empty: raise ValueError(...)` check
both pipelines run on the frame produced by the single- or multi-URL
branch, followed by returning the frame.  (The trailing CAMEO-description
insertion and output formatting are shared pure reshaping outside the
verified core.) -/
def finalCheck (res : Option DF) : Except GdeltError DF :=
  match res with
  | none => throw noDataError
  | some df => if df.isEmpty then throw noDataError else pure df

/-- The multi-URL branch of `search`: map the worker pool over all URLs,
keep the frames that are neither `None` nor empty
(`df is not None and not df.empty`), raise if nothing remains, else
concatenate. -/
def syncMulti (urls : List String) (fetch : String → FetchOutcome)
    (columns : List String) : Except GdeltError (Option DF) :=
  let dfs := urls.map fun u => (downloadAndParse u (fetch u) columns).1
  let validDfs := (dfs.filterMap id).filter fun df => !df.isEmpty
  if validDfs.isEmpty then throw noDataError
  else pure (some (concatDFs validDfs))

/-- The multi-URL branch of `asearch`: all per-URL task results are
gathered with `return_exceptions=True` — an `Except`-value per task — and
the filter keeps exactly the task results that are actual non-empty frames
(`isinstance(df, pd.DataFrame) and not df.empty`); raise if nothing
remains, else concatenate. -/
def asyncMulti (urls : List String) (fetch : String → FetchOutcome)
    (columns : List String) : Except GdeltError (Option DF) :=
  let gathered : List (Except GdeltError (Option DF)) :=
    urls.map fun u => .ok (adownloadAndParse u (fetch u) columns).1
  let validDfs := gathered.filterMap fun r =>
    match r with
    | .ok (some df) => if !df.isEmpty then some df else none
    | _ => none
  if validDfs.isEmpty then throw noDataError
  else pure (some (concatDFs validDfs))

/-- `GdeltClient.search` (sync), modelled through the merged frame:
validate, expand, build URLs, then either fetch the single URL directly or
run the multi-URL worker-pool branch, and apply the final None/empty
check.  The per-URL fetch outcome assignment `fetch` is the network
boundary. -/
def search (date : DateSpec) (table : GdeltTable) (coverage translation : Bool)
    (columns : List String) (fetch : String → FetchOutcome) (now : DateTime) :
    Except GdeltError DF := do
  validate_date date now
  let dateStrings ← expand_dates date coverage now
  let urls := buildUrls dateStrings table translation
  let res ←
    match urls with
    | [u] => pure (downloadAndParse u (fetch u) columns).1
    | _ => syncMulti urls fetch columns
  finalCheck res

/-- `GdeltClient.asearch` (async), modelled through the merged frame:
identical orchestration with the cooperative gather branch. -/
def asearch (date : DateSpec) (table : GdeltTable) (coverage translation : Bool)
    (columns : List String) (fetch : String → FetchOutcome) (now : DateTime) :
    Except GdeltError DF := do
  validate_date date now
  let dateStrings ← expand_dates date coverage now
  let urls := buildUrls dateStrings table translation
  let res ←
    match urls with
    | [u] => pure (adownloadAndParse u (fetch u) columns).1
    | _ => asyncMulti urls fetch columns
  finalCheck res

/-! ## Theorems -/

/-- Claim C7: for every raw table and named schema, an exact column-count
match assigns all schema names in order; a count of exactly one less
assigns the first `len(schema) - 1` names (dropping the schema's last
column); any other count leaves the columns unlabeled and emits a
non-fatal warning — no exception is raised and the table is returned. -/
theorem C7_schema_reconciler (ncols : Nat) (rows : List (List String))
    (columns : List String) :
    (ncols = columns.length →
      parseGdeltFile ncols rows columns = (⟨some columns, ncols, rows⟩, [])) ∧
    ((ncols : Int) = (columns.length : Int) - 1 →
      parseGdeltFile ncols rows columns =
        (⟨some (columns.take (columns.length - 1)), ncols, rows⟩, [])) ∧
    (ncols ≠ columns.length → (ncols : Int) ≠ (columns.length : Int) - 1 →
      parseGdeltFile ncols rows columns =
        (⟨none, ncols, rows⟩, [mismatchMsg columns.length ncols])) := by
  refine ⟨fun h => ?_, fun h => ?_, fun h1 h2 => ?_⟩ <;>
    simp only [parseGdeltFile] <;> split_ifs <;> first | rfl | omega

/-- Witness for C7 at a concrete one-column-short raw table. -/
theorem C7_schema_reconciler_witness :
    parseGdeltFile 2 [["x", "y"]] ["a", "b", "c"] =
      (⟨some ["a", "b"], 2, [["x", "y"]]⟩, []) := by
  have h := (C7_schema_reconciler 2 [["x", "y"]] ["a", "b", "c"]).2.1 (by decide)
  simpa using h

/-- The "no data" outcome of a per-item download: either the `None`
marker or an empty frame. -/
def noDataResult : Option DF → Prop
  | none => True
  | some df => df.isEmpty = true

instance (r : Option DF) : Decidable (noDataResult r) := by
  cases r <;> simp [noDataResult] <;> infer_instance

/-- Claim C2: each per-item outcome — resource absent (404), transport
exception, unexpected status, or a malformed payload — produces the
no-data marker `None` for that item only, the non-absence failures emit an
observable warning, any exception the body raises is contained (never
propagating out of the per-item function, in sync or async form), and the
batch map still processes every identifier. -/
theorem C2_item_isolation (url : String) (columns : List String) :
    (∀ payload, downloadAndParse url (.response 404 payload) columns =
      (none, [noDataWarn url])) ∧
    (∀ msg, downloadAndParse url (.exn msg) columns =
      (none, [failWarn url (.transportError msg)])) ∧
    (∀ status payload, status ≠ 404 → 400 ≤ status → status < 600 →
      downloadAndParse url (.response status payload) columns =
        (none, [failWarn url (.httpError status)])) ∧
    (∀ status msg, status ≠ 404 → status < 400 →
      downloadAndParse url (.response status (.malformed msg)) columns =
        (none, [failWarn url (.payloadError msg)])) ∧
    (∀ outcome e, downloadBody url outcome columns = .error e →
      downloadAndParse url outcome columns = (none, [failWarn url e])) ∧
    (∀ payload, adownloadAndParse url (.response 404 payload) columns =
      (none, [noDataWarn url])) ∧
    (∀ msg, adownloadAndParse url (.exn msg) columns =
      (none, [failWarn url (.transportError msg)])) ∧
    (∀ outcome e, adownloadBody url outcome columns = .error e →
      adownloadAndParse url outcome columns = (none, [failWarn url e])) ∧
    (∀ (urls : List String) (fetch : String → FetchOutcome),
      (urls.map fun u => (downloadAndParse u (fetch u) columns).1).length =
        urls.length) := by
  refine ⟨fun payload => ?_, fun msg => ?_, fun status payload h1 h2 h3 => ?_,
    fun status msg h1 h2 => ?_, fun outcome e h => ?_, fun payload => ?_,
    fun msg => ?_, fun outcome e h => ?_, fun urls fetch => ?_⟩
  · rfl
  · rfl
  · have hr : raiseForStatusSync status = .error (.httpError status) := by
      unfold raiseForStatusSync
      rw [if_pos ⟨h2, h3⟩]
    simp [downloadAndParse, downloadBody, h1, hr, bind, Except.bind]
  · have hr : raiseForStatusSync status = .ok () := by
      unfold raiseForStatusSync
      rw [if_neg]
      omega
    simp [downloadAndParse, downloadBody, h1, hr, readCsv, parseGdeltFile, bind, Except.bind]
  · simp only [downloadAndParse, h]
  · rfl
  · rfl
  · simp only [adownloadAndParse, h]
  · simp

/-- Witness for C2: a transport exception is contained to its own item. -/
theorem C2_item_isolation_witness :
    downloadAndParse "u" (.exn "timeout") ["a"] =
      (none, [failWarn "u" (.transportError "timeout")]) :=
  (C2_item_isolation "u" ["a"]).2.1 "timeout"

/-! ### Decoder lemmas -/

theorem firstIllegal_eq_none_iff (s : List Char) :
    firstIllegal s = none ↔ countIllegal s = 0 := by
  induction s with
  | nil => simp [firstIllegal, countIllegal]
  | cons c t ih =>
    by_cases hc : illegalChar c <;>
      simp [firstIllegal, countIllegal, hc, List.filter_cons] at * <;>
      simpa [countIllegal] using ih

theorem countIllegal_eq_zero_iff (s : List Char) :
    countIllegal s = 0 ↔ ∀ a ∈ s, illegalChar a = false := by
  simp [countIllegal, List.length_eq_zero, List.filter_eq_nil_iff]

theorem cleaned_of_no_illegal (s : List Char) (h : countIllegal s = 0) :
    cleaned s = s := by
  have h2 := (countIllegal_eq_zero_iff s).1 h
  induction s with
  | nil => rfl
  | cons c t ih =>
    have hc : illegalChar c = false := h2 c (by simp)
    simp only [cleaned, List.map_cons, hc, Bool.false_eq_true, if_false]
    have ht := ih ((countIllegal_eq_zero_iff t).2 fun a ha => h2 a (by simp [ha]))
      (fun a ha => h2 a (by simp [ha]))
    simpa [cleaned] using ht

theorem spliceAt_cons (c : Char) (t : List Char) (i : Nat) :
    spliceAt (c :: t) (i + 1) = c :: spliceAt t i := by
  simp [spliceAt]

theorem splice_countIllegal (s : List Char) (i : Nat)
    (h : firstIllegal s = some i) :
    countIllegal (spliceAt s i) + 1 = countIllegal s := by
  have hsp : illegalChar ' ' = false := by decide
  induction s generalizing i with
  | nil => simp [firstIllegal] at h
  | cons c t ih =>
    by_cases hc : illegalChar c
    · simp only [firstIllegal, hc, if_true, Option.some.injEq] at h
      subst h
      simp [spliceAt, countIllegal, List.filter_cons, hc, hsp]
    · simp only [firstIllegal, hc, Bool.false_eq_true, if_false,
        Option.map_eq_some'] at h
      obtain ⟨j, hj, rfl⟩ := h
      rw [spliceAt_cons]
      simp only [countIllegal, List.filter_cons, hc, Bool.false_eq_true,
        if_false]
      exact ih j hj

theorem splice_cleaned (s : List Char) (i : Nat)
    (h : firstIllegal s = some i) :
    cleaned (spliceAt s i) = cleaned s := by
  have hsp : illegalChar ' ' = false := by decide
  induction s generalizing i with
  | nil => simp [firstIllegal] at h
  | cons c t ih =>
    by_cases hc : illegalChar c
    · simp only [firstIllegal, hc, if_true, Option.some.injEq] at h
      subst h
      simp [spliceAt, cleaned, hc, hsp]
    · simp only [firstIllegal, hc, Bool.false_eq_true, if_false,
        Option.map_eq_some'] at h
      obtain ⟨j, hj, rfl⟩ := h
      rw [spliceAt_cons]
      simp only [cleaned, List.map_cons]
      have := ih j hj
      simp only [cleaned] at this
      rw [this]

theorem load_json_ok_of_le (n : Nat) :
    ∀ (s : List Char) (maxDepth depth : Nat), countIllegal s = n →
      n + depth ≤ maxDepth ∨ n = 0 →
      load_json s maxDepth depth = .ok (cleaned s) := by
  induction n with
  | zero =>
    intro s maxDepth depth hc _
    have hf : firstIllegal s = none := (firstIllegal_eq_none_iff s).2 hc
    rw [load_json]
    simp [jsonLoads, hf, cleaned_of_no_illegal s hc]
  | succ n ih =>
    intro s maxDepth depth hc hle
    have hne : firstIllegal s ≠ none := by
      intro hnone
      rw [(firstIllegal_eq_none_iff s).1 hnone] at hc
      omega
    obtain ⟨i, hi⟩ := Option.ne_none_iff_exists'.1 hne
    have hcount : countIllegal (spliceAt s i) = n := by
      have := splice_countIllegal s i hi
      omega
    have hdepth : ¬ maxDepth ≤ depth := by omega
    rw [load_json]
    simp only [jsonLoads, hi]
    rw [dif_neg hdepth]
    rw [ih (spliceAt s i) maxDepth (depth + 1) hcount (by omega)]
    rw [splice_cleaned s i hi]

theorem load_json_err_of_gt (n : Nat) :
    ∀ (s : List Char) (maxDepth depth : Nat), countIllegal s = n → 1 ≤ n →
      maxDepth < n + depth →
      load_json s maxDepth depth = .error .maxDepthReached := by
  induction n with
  | zero => omega
  | succ n ih =>
    intro s maxDepth depth hc _ hgt
    have hne : firstIllegal s ≠ none := by
      intro hnone
      rw [(firstIllegal_eq_none_iff s).1 hnone] at hc
      omega
    obtain ⟨i, hi⟩ := Option.ne_none_iff_exists'.1 hne
    rw [load_json]
    simp only [jsonLoads, hi]
    by_cases hd : maxDepth ≤ depth
    · rw [dif_pos hd]
    · rw [dif_neg hd]
      have hcount : countIllegal (spliceAt s i) = n := by
        have := splice_countIllegal s i hi
        omega
      exact ih (spliceAt s i) maxDepth (depth + 1) hcount (by omega) (by omega)

/-- Claim C3: a payload whose decode failures report exactly `k` offending
character positions decodes successfully (to the repaired text) whenever
`k <= max_depth` — so exactly `k` repair passes suffice, one pass for one
illegal character — while `k > max_depth` raises the terminal
max-recursion error, a value distinguishable from the position-bearing
"malformed but fixable" decode errors. -/
theorem C3_decoder_bound (s : List Char) (maxDepth k : Nat)
    (hk : countIllegal s = k) :
    (k ≤ maxDepth → load_json s maxDepth 0 = .ok (cleaned s)) ∧
    (maxDepth < k → load_json s maxDepth 0 = .error .maxDepthReached) ∧
    (∀ i, (JsonErr.maxDepthReached : JsonErr) ≠ .decodeErr i) := by
  refine ⟨fun h => ?_, fun h => ?_, fun i => by simp⟩
  · exact load_json_ok_of_le k s maxDepth 0 hk (by omega)
  · exact load_json_err_of_gt k s maxDepth 0 hk (by omega) (by omega)

/-- Witness for C3: one illegal character and one allowed repair pass
succeed; the same payload with a zero cap raises the terminal error. -/
theorem C3_decoder_bound_witness :
    load_json "ab\x01cd".data 1 0 = .ok "ab cd".data ∧
    load_json "ab\x01cd".data 0 0 = .error .maxDepthReached := by
  constructor
  · have h := (C3_decoder_bound "ab\x01cd".data 1 1 (by decide)).1 (by decide)
    rw [h]
    exact congrArg Except.ok (by decide)
  · exact (C3_decoder_bound "ab\x01cd".data 0 1 (by decide)).2.1 (by decide)

/-! ### Expander and validation lemmas -/

theorem dateEqB_eq_false (dt now : DateTime)
    (h : dateTripleLtB dt.dateTriple now.dateTriple = true) :
    dt.dateEqB now = false := by
  rw [DateTime.dateEqB]
  have hne : dt.dateTriple ≠ now.dateTriple := by
    intro he
    rw [he] at h
    simp [dateTripleLtB, lexLt] at h
  exact beq_eq_false_iff_ne.2 hne

/-- Claim C6: a single-day date specification strictly in the past with
`coverage=false` yields exactly one identifier ending in `234500`; for the
date `"2020-01-15"`, events, no translation, the single URL is the base
URL followed by `20200115234500.export.CSV.zip`; and the six
(table, translation) suffixes are bit-exactly the upstream convention. -/
theorem C6_single_past_day (i : DateInput) (dt now : DateTime)
    (hp : parse_date i = .ok dt)
    (hpast : dateTripleLtB dt.dateTriple now.dateTriple = true) :
    expand_dates (.single i) false now = .ok [strftimeDate dt ++ "234500"] ∧
    expand_dates (.single (.s "2020-01-15")) false ⟨2024, 1, 1, 0, 0, 0⟩ =
      .ok ["20200115234500"] ∧
    buildUrls ["20200115234500"] .events false =
      ["http://data.gdeltproject.org/gdeltv2/20200115234500.export.CSV.zip"] ∧
    suffixFor .events false = ".export.CSV.zip" ∧
    suffixFor .mentions false = ".mentions.CSV.zip" ∧
    suffixFor .gkg false = ".gkg.csv.zip" ∧
    suffixFor .events true = ".translation.export.CSV.zip" ∧
    suffixFor .mentions true = ".translation.mentions.CSV.zip" ∧
    suffixFor .gkg true = ".translation.gkg.csv.zip" := by
  refine ⟨?_, by decide, by decide, rfl, rfl, rfl, rfl, rfl, rfl⟩
  have hne := dateEqB_eq_false dt now hpast
  simp [expand_dates, normDates, hp, expandDay, hne, Except.map]

/-- Witness for C6 at the date 2019-05-05 against a 2024 clock. -/
theorem C6_single_past_day_witness :
    expand_dates (.single (.s "2019-05-05")) false ⟨2024, 1, 1, 0, 0, 0⟩ =
      .ok [strftimeDate ⟨2019, 5, 5, 0, 0, 0⟩ ++ "234500"] :=
  (C6_single_past_day (.s "2019-05-05") ⟨2019, 5, 5, 0, 0, 0⟩
    ⟨2024, 1, 1, 0, 0, 0⟩ (by decide) (by decide)).1

theorem checkDates_ok_means (now : DateTime) (l : List DateTime)
    (h : checkDates now l = .ok ()) :
    ∀ dt ∈ l, now.ltB dt = false ∧ dt.ltB GDELT_V2_START = false := by
  induction l with
  | nil => simp
  | cons a t ih =>
    rw [checkDates] at h
    split_ifs at h with h1 h2
    intro dt hdt
    rcases List.mem_cons.1 hdt with rfl | hmem
    · exact ⟨by simpa using h1, by simpa using h2⟩
    · exact ih h dt hmem

theorem checkDates_shape (now : DateTime) (l : List DateTime) :
    checkDates now l = .ok () ∨
      ∃ msg, checkDates now l = .error (.valueError msg) := by
  induction l with
  | nil => exact .inl rfl
  | cons a t ih =>
    rw [checkDates]
    split_ifs
    · exact .inr ⟨futureMsg a, rfl⟩
    · exact .inr ⟨earlyMsg a, rfl⟩
    · exact ih

theorem search_of_validate_error (date : DateSpec) (table : GdeltTable)
    (coverage translation : Bool) (columns : List String)
    (fetch : String → FetchOutcome) (now : DateTime) (e : GdeltError)
    (hv : validate_date date now = .error e) :
    search date table coverage translation columns fetch now = .error e ∧
    asearch date table coverage translation columns fetch now = .error e := by
  constructor <;> simp [search, asearch, hv, bind, Except.bind]

/-- Claim C10: whenever any supplied date parses to a moment after the
current time or before the 2015-02-18 GDELT 2.0 start, or a two-element
date list has first `>=` second (in particular equal start and end),
`validate_date` raises `ValueError`, and `search`/`asearch` propagate
exactly that error for every possible fetch assignment — i.e. before any
URL is built or any fetch is attempted. -/
theorem C10_upfront_validation (date : DateSpec) (now : DateTime)
    (dates : List DateTime) (hp : parsedDates date = .ok dates)
    (hviol : (∃ dt ∈ dates, now.ltB dt = true ∨ dt.ltB GDELT_V2_START = true) ∨
      (∃ a b, dates = [a, b] ∧ a.ltB b = false)) :
    ∃ msg, validate_date date now = .error (.valueError msg) ∧
      ∀ table coverage translation columns fetch,
        search date table coverage translation columns fetch now =
          .error (.valueError msg) ∧
        asearch date table coverage translation columns fetch now =
          .error (.valueError msg) := by
  have hval : ∃ msg, validate_date date now = .error (.valueError msg) := by
    rcases checkDates_shape now dates with hok | ⟨msg, herr⟩
    · have hall := checkDates_ok_means now dates hok
      rcases hviol with ⟨dt, hmem, hbad⟩ | ⟨a, b, rfl, hord⟩
      · rcases hall dt hmem with ⟨hf, he⟩
        rcases hbad with h1 | h2
        · rw [hf] at h1
          exact absurd h1 (by simp)
        · rw [he] at h2
          exact absurd h2 (by simp)
      · exact ⟨orderMsg a b, by
          simp [validate_date, hp, hok, hord, bind, Except.bind]⟩
    · exact ⟨msg, by simp [validate_date, hp, herr, bind, Except.bind]⟩
  obtain ⟨msg, hmsg⟩ := hval
  exact ⟨msg, hmsg, fun table coverage translation columns fetch =>
    search_of_validate_error date table coverage translation columns fetch
      now _ hmsg⟩

/-- Witness for C10: the two-element list with equal start and end dates
is rejected even though each date alone is valid. -/
theorem C10_upfront_validation_witness :
    ∃ msg, validate_date (.list [.s "2020-01-15", .s "2020-01-15"])
        ⟨2024, 1, 1, 0, 0, 0⟩ = .error (.valueError msg) ∧
      ∀ table coverage translation columns fetch,
        search (.list [.s "2020-01-15", .s "2020-01-15"]) table coverage
            translation columns fetch ⟨2024, 1, 1, 0, 0, 0⟩ =
          .error (.valueError msg) ∧
        asearch (.list [.s "2020-01-15", .s "2020-01-15"]) table coverage
            translation columns fetch ⟨2024, 1, 1, 0, 0, 0⟩ =
          .error (.valueError msg) :=
  C10_upfront_validation (.list [.s "2020-01-15", .s "2020-01-15"])
    ⟨2024, 1, 1, 0, 0, 0⟩ [⟨2020, 1, 15, 0, 0, 0⟩, ⟨2020, 1, 15, 0, 0, 0⟩]
    (by decide)
    (.inr ⟨⟨2020, 1, 15, 0, 0, 0⟩, ⟨2020, 1, 15, 0, 0, 0⟩, rfl, by decide⟩)

/-- Claim C4 as stated is refuted: on the current calendar day, expansion
with `coverage=true` truncates at the interval containing "now" — for
2020-01-15 requested at 10:07 on 2020-01-15 only 41 identifiers are
emitted, not 96. -/
theorem C4_counterexample :
    (expand_dates (.single (.s "2020-01-15")) true
        ⟨2020, 1, 15, 10, 7, 0⟩).map List.length = .ok 41 := by decide

/-- Claim C4 (amended): for every calendar day in the date specification
other than the current calendar date, expansion with `coverage=true` emits
exactly 96 identifiers for that day, the first ending `000000` and the
last ending `234500` (the current day instead truncates at "now"). -/
theorem C4_coverage_full_day (spec : DateSpec) (now : DateTime)
    (dates : List DateTime) (dt : DateTime)
    (hn : normDates spec = .ok dates) (hmem : dt ∈ dates)
    (hne : dt.dateEqB now = false) :
    (expandDay dt true now).length = 96 ∧
    (expandDay dt true now).head? = some (strftimeDate dt ++ "000000") ∧
    (expandDay dt true now).getLast? = some (strftimeDate dt ++ "234500") ∧
    expand_dates spec true now = .ok (dates.flatMap (expandDay · true now)) := by
  refine ⟨?_, ?_, ?_, by simp [expand_dates, hn, Except.map]⟩
  · simp only [expandDay, hne, Bool.false_eq_true, if_false, if_true,
      List.length_map]
    decide
  · simp only [expandDay, hne, Bool.false_eq_true, if_false, if_true,
      List.head?_map]
    rw [show get_15min_intervals.head? = some "000000" from by decide]
    rfl
  · simp only [expandDay, hne, Bool.false_eq_true, if_false, if_true,
      List.getLast?_map]
    rw [show get_15min_intervals.getLast? = some "234500" from by decide]
    rfl

/-- Witness for the amended C4 at 2020-01-15 against a 2024 clock. -/
theorem C4_coverage_full_day_witness :
    (expandDay ⟨2020, 1, 15, 0, 0, 0⟩ true ⟨2024, 1, 1, 0, 0, 0⟩).length = 96 ∧
    (expandDay ⟨2020, 1, 15, 0, 0, 0⟩ true ⟨2024, 1, 1, 0, 0, 0⟩).head? =
      some (strftimeDate ⟨2020, 1, 15, 0, 0, 0⟩ ++ "000000") ∧
    (expandDay ⟨2020, 1, 15, 0, 0, 0⟩ true ⟨2024, 1, 1, 0, 0, 0⟩).getLast? =
      some (strftimeDate ⟨2020, 1, 15, 0, 0, 0⟩ ++ "234500") ∧
    expand_dates (.single (.s "2020-01-15")) true ⟨2024, 1, 1, 0, 0, 0⟩ =
      .ok ([⟨2020, 1, 15, 0, 0, 0⟩].flatMap
        (expandDay · true ⟨2024, 1, 1, 0, 0, 0⟩)) :=
  C4_coverage_full_day (.single (.s "2020-01-15")) ⟨2024, 1, 1, 0, 0, 0⟩
    [⟨2020, 1, 15, 0, 0, 0⟩] ⟨2020, 1, 15, 0, 0, 0⟩ (by decide) (by decide)
    (by decide)

theorem sub15_floorTo15_eq_specStepBack (now : DateTime)
    (hh : now.hour < 24) (hm : now.minute < 60) :
    sub15 (floorTo15 now) = specStepBack now := by
  rcases now with ⟨y, mo, d, h, mi, s⟩
  simp only [sub15, floorTo15, specStepBack, DateTime.dateTriple] at *
  split_ifs <;> simp_all [DateTime.mk.injEq, prevTriple] <;> omega

/-- Claim C5: when a requested day equals the current calendar date and
`coverage=false`, the expander emits exactly one identifier, whose
timestamp is "now" floored to the 15-minute boundary and stepped back one
full interval (with the midnight borrow into the previous day's `234500`
slot). -/
theorem C5_today_truncation (i : DateInput) (dt now : DateTime)
    (hp : parse_date i = .ok dt) (heq : dt.dateEqB now = true)
    (hh : now.hour < 24) (hm : now.minute < 60) :
    expand_dates (.single i) false now =
      .ok [strftimeDateTime (specStepBack now)] ∧
    sub15 (floorTo15 now) = specStepBack now := by
  have hs := sub15_floorTo15_eq_specStepBack now hh hm
  refine ⟨?_, hs⟩
  simp [expand_dates, normDates, hp, expandDay, heq, Except.map, hs]

/-- Witness for C5 just after midnight on 2024-01-01: the one identifier
is the last interval of the previous day. -/
theorem C5_today_truncation_witness :
    expand_dates (.single (.dt ⟨2024, 1, 1, 0, 7, 0⟩)) false
        ⟨2024, 1, 1, 0, 7, 0⟩ = .ok ["20231231234500"] := by
  have h := (C5_today_truncation (.dt ⟨2024, 1, 1, 0, 7, 0⟩)
    ⟨2024, 1, 1, 0, 7, 0⟩ ⟨2024, 1, 1, 0, 7, 0⟩ rfl (by decide) (by decide)
    (by decide)).1
  rw [h]
  exact congrArg Except.ok (by decide)

/-! ### Merge/empty-result lemmas -/

theorem sync_filter_all_no_data (urls : List String) (g : String → Option DF)
    (h : ∀ u ∈ urls, noDataResult (g u)) :
    ((urls.map g).filterMap id).filter (fun df => !df.isEmpty) = [] := by
  induction urls with
  | nil => rfl
  | cons u us ih =>
    have htail := ih fun x hx => h x (List.mem_cons_of_mem _ hx)
    have hu := h u (List.mem_cons_self _ _)
    cases hg : g u with
    | none =>
      simp only [List.map_cons, hg, List.filterMap_cons, id]
      exact htail
    | some df =>
      rw [hg] at hu
      simp only [noDataResult] at hu
      simp only [List.map_cons, hg, List.filterMap_cons, id, List.filter_cons,
        hu, Bool.not_true, Bool.false_eq_true, if_false]
      exact htail

theorem async_filter_all_no_data (urls : List String) (g : String → Option DF)
    (h : ∀ u ∈ urls, noDataResult (g u)) :
    ((urls.map fun u => (Except.ok (g u) : Except GdeltError (Option DF))).filterMap
      fun r =>
        match r with
        | .ok (some df) => if !df.isEmpty then some df else none
        | _ => none) = [] := by
  induction urls with
  | nil => rfl
  | cons u us ih =>
    have htail := ih fun x hx => h x (List.mem_cons_of_mem _ hx)
    have hu := h u (List.mem_cons_self _ _)
    cases hg : g u with
    | none =>
      simp only [List.map_cons, hg, List.filterMap_cons]
      exact htail
    | some df =>
      rw [hg] at hu
      simp only [noDataResult] at hu
      simp only [List.map_cons, hg, List.filterMap_cons, hu, Bool.not_true,
        Bool.false_eq_true, if_false]
      exact htail

theorem syncMulti_all_no_data (urls : List String)
    (fetch : String → FetchOutcome) (columns : List String)
    (h : ∀ u ∈ urls, noDataResult (downloadAndParse u (fetch u) columns).1) :
    syncMulti urls fetch columns = .error noDataError := by
  simp only [syncMulti]
  rw [sync_filter_all_no_data urls _ h]
  simp [throw, throwThe, MonadExceptOf.throw]

theorem asyncMulti_all_no_data (urls : List String)
    (fetch : String → FetchOutcome) (columns : List String)
    (h : ∀ u ∈ urls, noDataResult (adownloadAndParse u (fetch u) columns).1) :
    asyncMulti urls fetch columns = .error noDataError := by
  simp only [asyncMulti]
  rw [async_filter_all_no_data urls _ h]
  simp [throw, throwThe, MonadExceptOf.throw]

/-- Claim C1 (amended): when every per-identifier download yields the
no-data marker or an empty frame — for a multi-identifier expansion or the
single-identifier case alike — `search` and `asearch` raise the `ValueError`
whose message is `"No data returned for the specified date(s)."` rather
than returning an empty table.  (The code has no dedicated
`EmptyResultError` class; the terminal error is this generic `ValueError`,
distinguishable only by its message.) -/
theorem C1_empty_result (date : DateSpec) (table : GdeltTable)
    (coverage translation : Bool) (columns : List String)
    (fetch : String → FetchOutcome) (now : DateTime) (ids : List String)
    (hv : validate_date date now = .ok ())
    (he : expand_dates date coverage now = .ok ids) :
    ((∀ u ∈ buildUrls ids table translation,
        noDataResult (downloadAndParse u (fetch u) columns).1) →
      search date table coverage translation columns fetch now =
        .error noDataError) ∧
    ((∀ u ∈ buildUrls ids table translation,
        noDataResult (adownloadAndParse u (fetch u) columns).1) →
      asearch date table coverage translation columns fetch now =
        .error noDataError) ∧
    noDataError = .valueError "No data returned for the specified date(s)." := by
  refine ⟨fun hnd => ?_, fun hnd => ?_, rfl⟩
  · rw [search]
    simp only [hv, he, bind, Except.bind]
    rcases hurls : buildUrls ids table translation with _ | ⟨u, _ | ⟨u2, rest⟩⟩
    · rw [hurls] at hnd
      have hm := syncMulti_all_no_data [] fetch columns hnd
      simp [hm]
    · rw [hurls] at hnd
      have hu := hnd u (by simp)
      cases hr : (downloadAndParse u (fetch u) columns).1 with
      | none => simp [pure, Except.pure, hr, finalCheck, throw, throwThe,
          MonadExceptOf.throw]
      | some df =>
        rw [hr] at hu
        simp only [noDataResult] at hu
        simp [pure, Except.pure, hr, finalCheck, hu, throw, throwThe,
          MonadExceptOf.throw]
    · rw [hurls] at hnd
      have hm := syncMulti_all_no_data (u :: u2 :: rest) fetch columns hnd
      simp [hm]
  · rw [asearch]
    simp only [hv, he, bind, Except.bind]
    rcases hurls : buildUrls ids table translation with _ | ⟨u, _ | ⟨u2, rest⟩⟩
    · rw [hurls] at hnd
      have hm := asyncMulti_all_no_data [] fetch columns hnd
      simp [hm]
    · rw [hurls] at hnd
      have hu := hnd u (by simp)
      cases hr : (adownloadAndParse u (fetch u) columns).1 with
      | none => simp [pure, Except.pure, hr, finalCheck, throw, throwThe,
          MonadExceptOf.throw]
      | some df =>
        rw [hr] at hu
        simp only [noDataResult] at hu
        simp [pure, Except.pure, hr, finalCheck, hu, throw, throwThe,
          MonadExceptOf.throw]
    · rw [hurls] at hnd
      have hm := asyncMulti_all_no_data (u :: u2 :: rest) fetch columns hnd
      simp [hm]

/-- Claim C1 as stated is refuted: at a concrete all-404 batch the raised
error is the generic builtin `ValueError` (the repository defines no
`EmptyResultError` class), the very same exception class the validation
layer raises — distinguishable from other errors only by its message. -/
theorem C1_counterexample :
    search (.list [.s "2020-01-15", .s "2020-01-16", .s "2020-01-17"]) .events
        false false ["a", "b", "c"] (fun _ => .response 404 (.table 0 []))
        ⟨2024, 1, 1, 0, 0, 0⟩ =
      .error (.valueError "No data returned for the specified date(s).") ∧
    GdeltError.isGenericValueError
      (.valueError "No data returned for the specified date(s).") = true ∧
    validate_date (.single (.dt ⟨2010, 1, 15, 0, 0, 0⟩)) ⟨2024, 1, 1, 0, 0, 0⟩ =
      .error (.valueError (earlyMsg ⟨2010, 1, 15, 0, 0, 0⟩)) :=
  ⟨by decide, rfl, by decide⟩

/-- Witness for the amended C1: a three-identifier batch in which every
download 404s makes both pipelines raise the no-data `ValueError`. -/
theorem C1_empty_result_witness :
    search (.list [.s "2020-01-15", .s "2020-01-16", .s "2020-01-17"]) .events
        false false ["a", "b", "c"] (fun _ => .response 404 (.table 0 []))
        ⟨2024, 1, 1, 0, 0, 0⟩ = .error noDataError ∧
    asearch (.list [.s "2020-01-15", .s "2020-01-16", .s "2020-01-17"]) .events
        false false ["a", "b", "c"] (fun _ => .response 404 (.table 0 []))
        ⟨2024, 1, 1, 0, 0, 0⟩ = .error noDataError := by
  have h := C1_empty_result
    (.list [.s "2020-01-15", .s "2020-01-16", .s "2020-01-17"]) .events
    false false ["a", "b", "c"] (fun _ => .response 404 (.table 0 []))
    ⟨2024, 1, 1, 0, 0, 0⟩ ["20200115234500", "20200116234500", "20200117234500"]
    (by decide) (by decide)
  exact ⟨h.1 (by decide), h.2.1 (by decide)⟩

/-! ### Sync/async pipeline comparison -/

theorem adownload_eq_download (url : String) (o : FetchOutcome)
    (columns : List String) (hs : ∀ s p, o = .response s p → s < 600) :
    adownloadAndParse url o columns = downloadAndParse url o columns := by
  cases o with
  | exn msg => rfl
  | response status payload =>
    have hlt : status < 600 := hs status payload rfl
    by_cases h404 : status = 404
    · subst h404
      rfl
    · by_cases hge : 400 ≤ status
      · have h1 : raiseForStatusSync status = .error (.httpError status) := by
          unfold raiseForStatusSync
          rw [if_pos ⟨hge, hlt⟩]
        have h2 : raiseForStatusAio status = .error (.httpError status) := by
          unfold raiseForStatusAio
          rw [if_pos hge]
        simp [downloadAndParse, adownloadAndParse, downloadBody, adownloadBody,
          h404, h1, h2, bind, Except.bind]
      · have h1 : raiseForStatusSync status = .ok () := by
          unfold raiseForStatusSync
          rw [if_neg]
          omega
        have h2 : raiseForStatusAio status = .ok () := by
          unfold raiseForStatusAio
          rw [if_neg hge]
        simp [downloadAndParse, adownloadAndParse, downloadBody, adownloadBody,
          h404, h1, h2, bind, Except.bind]

theorem gather_filter_eq (l : List (Option DF)) :
    ((l.map fun r => (Except.ok r : Except GdeltError (Option DF))).filterMap
      fun r =>
        match r with
        | .ok (some df) => if !df.isEmpty then some df else none
        | _ => none) =
    (l.filterMap id).filter fun df => !df.isEmpty := by
  induction l with
  | nil => rfl
  | cons r rs ih =>
    cases r with
    | none =>
      simp only [List.map_cons, List.filterMap_cons, id]
      exact ih
    | some df =>
      simp only [List.map_cons, List.filterMap_cons, id, List.filter_cons]
      by_cases hdf : df.isEmpty = true
      · simp only [hdf, Bool.not_true, Bool.false_eq_true, if_false]
        exact ih
      · have hdf2 : df.isEmpty = false := by
          cases h : df.isEmpty
          · rfl
          · exact absurd h hdf
        simp only [hdf2, Bool.not_false, if_true]
        rw [ih]

theorem asyncMulti_eq_syncMulti (urls : List String)
    (fetch : String → FetchOutcome) (columns : List String)
    (hs : ∀ u, ∀ s p, fetch u = .response s p → s < 600) :
    asyncMulti urls fetch columns = syncMulti urls fetch columns := by
  simp only [asyncMulti, syncMulti]
  have hmap : (urls.map fun u =>
      (Except.ok (adownloadAndParse u (fetch u) columns).1 :
        Except GdeltError (Option DF))) =
      (urls.map fun u => (downloadAndParse u (fetch u) columns).1).map
        fun r => (Except.ok r : Except GdeltError (Option DF)) := by
    rw [List.map_map]
    apply List.map_congr_left
    intro u hu
    simp only [Function.comp]
    rw [adownload_eq_download u (fetch u) columns (hs u)]
  rw [hmap, gather_filter_eq]

/-- Claim C8 as stated is refuted: the two raise-for-status semantics
differ at statuses outside 400..599 — for a single identifier whose fetch
returns status 999 with a well-formed body, the synchronous pipeline
returns the populated table while the asynchronous pipeline classifies the
same outcome as "no data" and raises the empty-result error. -/
theorem C8_counterexample :
    search (.single (.s "2020-01-15")) .events false false ["a", "b", "c"]
        (fun _ => .response 999 (.table 3 [["x", "y", "z"]]))
        ⟨2024, 1, 1, 0, 0, 0⟩ =
      .ok ⟨some ["a", "b", "c"], 3, [["x", "y", "z"]]⟩ ∧
    asearch (.single (.s "2020-01-15")) .events false false ["a", "b", "c"]
        (fun _ => .response 999 (.table 3 [["x", "y", "z"]]))
        ⟨2024, 1, 1, 0, 0, 0⟩ = .error noDataError :=
  ⟨by decide, by decide⟩

/-- Claim C8 (amended): for every date specification, table kind, flags,
and fixed per-identifier fetch assignment in which every response status is
below 600 (the range where `requests` and `aiohttp` agree on
`raise_for_status`), the worker-pool pipeline and the cooperative pipeline
classify identifiers identically and produce equal merged results. -/
theorem C8_sync_async_equiv (date : DateSpec) (table : GdeltTable)
    (coverage translation : Bool) (columns : List String)
    (fetch : String → FetchOutcome) (now : DateTime)
    (hs : ∀ u, ∀ s p, fetch u = .response s p → s < 600) :
    asearch date table coverage translation columns fetch now =
      search date table coverage translation columns fetch now := by
  rw [search, asearch]
  simp only [bind, Except.bind]
  cases hv : validate_date date now with
  | error e => rfl
  | ok v =>
    cases he : expand_dates date coverage now with
    | error e => rfl
    | ok ids =>
      dsimp only
      rcases hurls : buildUrls ids table translation with _ | ⟨u1, _ | ⟨u2, rest⟩⟩
      · rw [asyncMulti_eq_syncMulti [] fetch columns hs]
      · dsimp only
        rw [adownload_eq_download u1 (fetch u1) columns (hs u1)]
      · dsimp only
        rw [asyncMulti_eq_syncMulti (u1 :: u2 :: rest) fetch columns hs]

/-- Witness for the amended C8 at a concrete two-day all-404 batch. -/
theorem C8_sync_async_equiv_witness :
    asearch (.list [.s "2020-01-15", .s "2020-01-16", .s "2020-01-17"]) .events
        false false ["a", "b", "c"] (fun _ => .response 404 (.table 0 []))
        ⟨2024, 1, 1, 0, 0, 0⟩ =
      search (.list [.s "2020-01-15", .s "2020-01-16", .s "2020-01-17"]) .events
        false false ["a", "b", "c"] (fun _ => .response 404 (.table 0 []))
        ⟨2024, 1, 1, 0, 0, 0⟩ :=
  C8_sync_async_equiv (.list [.s "2020-01-15", .s "2020-01-16", .s "2020-01-17"])
    .events false false ["a", "b", "c"] (fun _ => .response 404 (.table 0 []))
    ⟨2024, 1, 1, 0, 0, 0⟩ (fun u s p h => by
      injection h with h1 h2
      omega)

/-! ### Expander duplicate-freedom lemmas -/

theorem digitChar_inj {a b : Nat} (ha : a < 10) (hb : b < 10)
    (h : digitChar a = digitChar b) : a = b := by
  interval_cases a <;> interval_cases b <;> first | rfl | exact absurd h (by decide)

theorem strftimeYmd_inj {t u : Nat × Nat × Nat}
    (ht : t.1 ≤ 9999 ∧ t.2.1 ≤ 99 ∧ t.2.2 ≤ 99)
    (hu : u.1 ≤ 9999 ∧ u.2.1 ≤ 99 ∧ u.2.2 ≤ 99)
    (h : strftimeYmd t = strftimeYmd u) : t = u := by
  obtain ⟨y, m, d⟩ := t
  obtain ⟨y2, m2, d2⟩ := u
  obtain ⟨hy, hm, hd⟩ := ht
  obtain ⟨hy2, hm2, hd2⟩ := hu
  have hyb : y ≤ 9999 := hy
  have hmb : m ≤ 99 := hm
  have hdb : d ≤ 99 := hd
  have hy2b : y2 ≤ 9999 := hy2
  have hm2b : m2 ≤ 99 := hm2
  have hd2b : d2 ≤ 99 := hd2
  clear hy hm hd hy2 hm2 hd2
  have hdata : (strftimeYmd (y, m, d)).data = (strftimeYmd (y2, m2, d2)).data :=
    congrArg String.data h
  simp only [strftimeYmd, pad4, pad2, List.cons_append, List.nil_append,
    List.cons.injEq, and_true] at hdata
  obtain ⟨h1, h2, h3, h4, h5, h6, h7, h8⟩ := hdata
  have e1 := digitChar_inj (by omega) (by omega) h1
  have e2 := digitChar_inj (by omega) (by omega) h2
  have e3 := digitChar_inj (by omega) (by omega) h3
  have e4 := digitChar_inj (by omega) (by omega) h4
  have e5 := digitChar_inj (by omega) (by omega) h5
  have e6 := digitChar_inj (by omega) (by omega) h6
  have e7 := digitChar_inj (by omega) (by omega) h7
  have e8 := digitChar_inj (by omega) (by omega) h8
  have hy' : y = y2 := by omega
  have hm' : m = m2 := by omega
  have hd' : d = d2 := by omega
  subst hy' hm' hd'
  rfl

theorem daysInMonth_le_31 (y m : Nat) : daysInMonth y m ≤ 31 := by
  unfold daysInMonth
  split_ifs <;> omega

theorem prevTriple_bounds {t : Nat × Nat × Nat}
    (h : 1 ≤ t.1 ∧ t.1 ≤ 9999 ∧ 1 ≤ t.2.1 ∧ t.2.1 ≤ 12 ∧ 1 ≤ t.2.2 ∧
      t.2.2 ≤ 31) :
    (prevTriple t).1 ≤ 9999 ∧ (prevTriple t).2.1 ≤ 99 ∧
      (prevTriple t).2.2 ≤ 99 := by
  obtain ⟨y, m, d⟩ := t
  obtain ⟨h1, h2, h3, h4, h5, h6⟩ := h
  have h2b : y ≤ 9999 := h2
  have h4b : m ≤ 12 := h4
  have h6b : d ≤ 31 := h6
  have hdim := daysInMonth_le_31 y (m - 1)
  simp only [prevTriple]
  split_ifs <;> refine ⟨?_, ?_, ?_⟩ <;> dsimp only <;> omega

/-- The 8-character date prefix a given day stamps onto its identifiers:
the day's own date, except in the "today, no coverage, first interval of
the day" case, where the emitted identifier belongs to the previous
calendar day. -/
def dayBlockTriple (dt : DateTime) (coverage : Bool) (now : DateTime) :
    Nat × Nat × Nat :=
  if coverage = false ∧ dt.dateEqB now = true ∧ now.hour = 0 ∧
      now.minute < 15 then
    prevTriple now.dateTriple
  else dt.dateTriple

theorem intervals_nodup : get_15min_intervals.Nodup := by decide

theorem intervals_length6 : ∀ iv ∈ get_15min_intervals, iv.data.length = 6 := by
  decide

theorem strftimeYmd_data_length (t : Nat × Nat × Nat) :
    (strftimeYmd t).data.length = 8 := by
  simp [strftimeYmd, pad4, pad2]

theorem take8_of_append (p q : List Char) (hp : p.length = 8) :
    (p ++ q).take 8 = p :=
  List.take_left' hp

theorem sub15_floor_dateTriple (now : DateTime) (hm : now.minute < 60) :
    (sub15 (floorTo15 now)).dateTriple =
      if now.hour = 0 ∧ now.minute < 15 then prevTriple now.dateTriple
      else now.dateTriple := by
  rcases now with ⟨y, mo, d, h, mi, s⟩
  simp only [sub15, floorTo15, DateTime.dateTriple] at *
  split_ifs <;> simp_all [DateTime.dateTriple, prevTriple] <;> omega

theorem stringDataExt (s t : String) (h : s.data = t.data) : s = t := by
  cases s
  cases t
  exact congrArg String.mk h

theorem stringAppendLeftCancel (s a b : String) (h : s ++ a = s ++ b) :
    a = b := by
  have hd := congrArg String.data h
  simp only [String.data_append] at hd
  exact stringDataExt a b (List.append_cancel_left hd)

theorem strftimeDateTime_decomp (a : DateTime) :
    (strftimeDateTime a).data =
      (strftimeYmd a.dateTriple).data ++
        (pad2 a.hour ++ pad2 a.minute ++ pad2 a.second) := by
  simp [strftimeDateTime, strftimeYmd, DateTime.dateTriple, List.append_assoc]

theorem dateEqB_true_iff (a b : DateTime) :
    a.dateEqB b = true ↔ a.dateTriple = b.dateTriple := by
  simp [DateTime.dateEqB]

/-- Every identifier a day's loop iteration emits is 14 characters long
and starts with the 8-character date stamp `dayBlockTriple` assigns to
that day. -/
theorem expandDay_dateStamp (dt : DateTime) (cov : Bool) (now : DateTime)
    (hm : now.minute < 60) :
    ∀ x ∈ expandDay dt cov now,
      x.data.take 8 = (strftimeYmd (dayBlockTriple dt cov now)).data ∧
      x.data.length = 14 := by
  intro x hx
  cases cov with
  | true =>
    have hblock : dayBlockTriple dt true now = dt.dateTriple := by
      simp [dayBlockTriple]
    rw [hblock]
    by_cases heq : dt.dateEqB now = true
    · simp only [expandDay, heq, if_true] at hx
      obtain ⟨iv, hiv, rfl⟩ := List.mem_map.1 hx
      have hiv2 : iv ∈ get_15min_intervals :=
        List.take_subset _ _ hiv
      have hlen := intervals_length6 iv hiv2
      constructor
      · rw [strftimeDate, String.data_append]
        exact take8_of_append _ _ (strftimeYmd_data_length _)
      · rw [strftimeDate, String.data_append, List.length_append,
          strftimeYmd_data_length, hlen]
    · have heq2 : dt.dateEqB now = false := by
        cases h : dt.dateEqB now
        · rfl
        · exact absurd h heq
      simp only [expandDay, heq2, Bool.false_eq_true, if_false, if_true] at hx
      obtain ⟨iv, hiv, rfl⟩ := List.mem_map.1 hx
      have hlen := intervals_length6 iv hiv
      constructor
      · rw [strftimeDate, String.data_append]
        exact take8_of_append _ _ (strftimeYmd_data_length _)
      · rw [strftimeDate, String.data_append, List.length_append,
          strftimeYmd_data_length, hlen]
  | false =>
    by_cases heq : dt.dateEqB now = true
    · simp only [expandDay, heq, Bool.false_eq_true, if_false, if_true,
        List.mem_singleton] at hx
      subst hx
      have htr := sub15_floor_dateTriple now hm
      have hblock : dayBlockTriple dt false now =
          (sub15 (floorTo15 now)).dateTriple := by
        rw [htr]
        simp only [dayBlockTriple, heq]
        by_cases hc : now.hour = 0 ∧ now.minute < 15
        · simp [hc]
        · simp [hc, (dateEqB_true_iff dt now).1 heq]
      rw [hblock]
      constructor
      · rw [strftimeDateTime_decomp]
        exact take8_of_append _ _ (strftimeYmd_data_length _)
      · rw [strftimeDateTime_decomp, List.length_append,
          strftimeYmd_data_length]
        simp [pad2]
    · have heq2 : dt.dateEqB now = false := by
        cases h : dt.dateEqB now
        · rfl
        · exact absurd h heq
      have hblock : dayBlockTriple dt false now = dt.dateTriple := by
        simp [dayBlockTriple, heq2]
      simp only [expandDay, heq2, Bool.false_eq_true, if_false,
        List.mem_singleton] at hx
      subst hx
      rw [hblock]
      constructor
      · rw [strftimeDate, String.data_append]
        exact take8_of_append _ _ (strftimeYmd_data_length _)
      · rw [strftimeDate, String.data_append, List.length_append,
          strftimeYmd_data_length]
        rfl

/-- Each day's loop iteration emits pairwise-distinct identifiers. -/
theorem expandDay_nodup (dt : DateTime) (cov : Bool) (now : DateTime) :
    (expandDay dt cov now).Nodup := by
  cases cov with
  | true =>
    by_cases heq : dt.dateEqB now = true
    · simp only [expandDay, heq, if_true]
      refine List.Nodup.map_on ?_
        (intervals_nodup.sublist (List.take_sublist _ _))
      intro a ha b hb hab
      exact stringAppendLeftCancel _ _ _ hab
    · have heq2 : dt.dateEqB now = false := by
        cases h : dt.dateEqB now
        · rfl
        · exact absurd h heq
      simp only [expandDay, heq2, Bool.false_eq_true, if_false, if_true]
      refine List.Nodup.map_on ?_ intervals_nodup
      intro a ha b hb hab
      exact stringAppendLeftCancel _ _ _ hab
  | false =>
    by_cases heq : dt.dateEqB now = true
    · simp [expandDay, heq]
    · have heq2 : dt.dateEqB now = false := by
        cases h : dt.dateEqB now
        · rfl
        · exact absurd h heq
      simp [expandDay, heq2]

theorem dayBlockTriple_bounds (d : DateTime) (cov : Bool) (now : DateTime)
    (hd : ValidDT d) (hnow : ValidDT now) :
    (dayBlockTriple d cov now).1 ≤ 9999 ∧
      (dayBlockTriple d cov now).2.1 ≤ 99 ∧
      (dayBlockTriple d cov now).2.2 ≤ 99 := by
  obtain ⟨hd1, hd2, hd3, hd4, hd5, hd6, -, -, -⟩ := hd
  obtain ⟨hn1, hn2, hn3, hn4, hn5, hn6, -, -, -⟩ := hnow
  have hdimd := daysInMonth_le_31 d.year d.month
  have hdimn := daysInMonth_le_31 now.year now.month
  unfold dayBlockTriple
  split_ifs
  · exact prevTriple_bounds ⟨hn1, hn2, hn3, hn4, hn5, by
      simp only [DateTime.dateTriple]
      omega⟩
  · exact ⟨by simpa [DateTime.dateTriple] using hd2,
      by simp [DateTime.dateTriple]; omega,
      by simp [DateTime.dateTriple]; omega⟩

/-- Distinct calendar days stamp distinct 8-character date prefixes, given
that the "today maps onto the previous day" collision is excluded. -/
theorem blockKeys_nodup (dates : List DateTime) (cov : Bool) (now : DateTime)
    (hval : ∀ d ∈ dates, ValidDT d) (hnow : ValidDT now)
    (hnd : (dates.map DateTime.dateTriple).Nodup)
    (hcol : ¬(cov = false ∧ now.hour = 0 ∧ now.minute < 15 ∧
      (∃ d ∈ dates, d.dateTriple = now.dateTriple) ∧
      (∃ d ∈ dates, d.dateTriple = prevTriple now.dateTriple))) :
    (dates.map fun d => (strftimeYmd (dayBlockTriple d cov now)).data).Nodup := by
  have hinj := List.inj_on_of_nodup_map hnd
  have hdatesnd : dates.Nodup := List.Nodup.of_map _ hnd
  refine List.Nodup.map_on ?_ hdatesnd
  intro d1 h1 d2 h2 hkey
  have hymd : strftimeYmd (dayBlockTriple d1 cov now) =
      strftimeYmd (dayBlockTriple d2 cov now) := stringDataExt _ _ hkey
  have htr : dayBlockTriple d1 cov now = dayBlockTriple d2 cov now :=
    strftimeYmd_inj (dayBlockTriple_bounds d1 cov now (hval d1 h1) hnow)
      (dayBlockTriple_bounds d2 cov now (hval d2 h2) hnow) hymd
  by_cases hc1 : cov = false ∧ d1.dateEqB now = true ∧ now.hour = 0 ∧
      now.minute < 15
  · by_cases hc2 : cov = false ∧ d2.dateEqB now = true ∧ now.hour = 0 ∧
        now.minute < 15
    · exact hinj h1 h2 (by
        rw [(dateEqB_true_iff d1 now).1 hc1.2.1,
          (dateEqB_true_iff d2 now).1 hc2.2.1])
    · exfalso
      have hb1 : dayBlockTriple d1 cov now = prevTriple now.dateTriple := by
        simp [dayBlockTriple, hc1]
      have hb2 : dayBlockTriple d2 cov now = d2.dateTriple := by
        simp only [dayBlockTriple]
        rw [if_neg hc2]
      apply hcol
      exact ⟨hc1.1, hc1.2.2.1, hc1.2.2.2,
        ⟨d1, h1, (dateEqB_true_iff d1 now).1 hc1.2.1⟩,
        ⟨d2, h2, by rw [← hb2, ← htr, hb1]⟩⟩
  · by_cases hc2 : cov = false ∧ d2.dateEqB now = true ∧ now.hour = 0 ∧
        now.minute < 15
    · exfalso
      have hb2 : dayBlockTriple d2 cov now = prevTriple now.dateTriple := by
        simp [dayBlockTriple, hc2]
      have hb1 : dayBlockTriple d1 cov now = d1.dateTriple := by
        simp only [dayBlockTriple]
        rw [if_neg hc1]
      apply hcol
      exact ⟨hc2.1, hc2.2.2.1, hc2.2.2.2,
        ⟨d2, h2, (dateEqB_true_iff d2 now).1 hc2.2.1⟩,
        ⟨d1, h1, by rw [← hb1, htr, hb2]⟩⟩
    · have hb1 : dayBlockTriple d1 cov now = d1.dateTriple := by
        simp only [dayBlockTriple]
        rw [if_neg hc1]
      have hb2 : dayBlockTriple d2 cov now = d2.dateTriple := by
        simp only [dayBlockTriple]
        rw [if_neg hc2]
      exact hinj h1 h2 (by rw [← hb1, htr, hb2])

/-- Pairwise-distinct date prefixes make the concatenated per-day blocks
duplicate-free. -/
theorem flatMap_expandDay_nodup (dates : List DateTime) (cov : Bool)
    (now : DateTime) (hm : now.minute < 60)
    (hkeys : (dates.map fun d =>
      (strftimeYmd (dayBlockTriple d cov now)).data).Nodup) :
    (dates.flatMap (expandDay · cov now)).Nodup := by
  induction dates with
  | nil => simp
  | cons d ds ih =>
    rw [List.flatMap_cons]
    rw [List.map_cons, List.nodup_cons] at hkeys
    refine List.Nodup.append (expandDay_nodup d cov now) (ih hkeys.2) ?_
    intro x hx1 hx2
    obtain ⟨d2, hd2, hxd2⟩ := List.mem_flatMap.1 hx2
    have hp1 := (expandDay_dateStamp d cov now hm x hx1).1
    have hp2 := (expandDay_dateStamp d2 cov now hm x hxd2).1
    apply hkeys.1
    rw [← hp1, hp2]
    exact List.mem_map_of_mem _ hd2

/-- Claim C9 as stated is refuted, in two ways.  (a) For the two-day range
2020-01-15..2020-01-16 queried at 00:07 on 2020-01-16 with
`coverage=false`, the current-day truncation steps back into the previous
day, so the identifier `20200115234500` is emitted twice.  (b) An explicit
date list naming the same day twice duplicates its identifier.  The
expander's output is therefore not always duplicate-free. -/
theorem C9_counterexample :
    expand_dates (.list [.s "2020-01-15", .s "2020-01-16"]) false
        ⟨2020, 1, 16, 0, 7, 0⟩ =
      .ok ["20200115234500", "20200115234500"] ∧
    ¬(["20200115234500", "20200115234500"] : List String).Nodup ∧
    expand_dates (.list [.s "2020-01-15", .s "2020-01-16", .s "2020-01-15"])
        false ⟨2024, 1, 1, 0, 0, 0⟩ =
      .ok ["20200115234500", "20200116234500", "20200115234500"] :=
  ⟨by decide, by decide, by decide⟩

/-- Claim C9 (amended): the expander is a pure function of the date
specification, coverage flag, and the fixed clock "now" — its output is
the determined day-by-day concatenation — and that output contains no
duplicate identifiers provided the normalized day list has pairwise
distinct calendar days and the excluded corner is absent (with
`coverage=false` and "now" inside the first 15-minute interval of the day,
the day list must not contain both the current day and the previous day,
since the current day's identifier then lands on the previous day's
`234500` slot). -/
theorem C9_expander_nodup (spec : DateSpec) (cov : Bool) (now : DateTime)
    (dates : List DateTime) (hn : normDates spec = .ok dates)
    (hval : ∀ d ∈ dates, ValidDT d) (hnow : ValidDT now)
    (hnd : (dates.map DateTime.dateTriple).Nodup)
    (hcol : ¬(cov = false ∧ now.hour = 0 ∧ now.minute < 15 ∧
      (∃ d ∈ dates, d.dateTriple = now.dateTriple) ∧
      (∃ d ∈ dates, d.dateTriple = prevTriple now.dateTriple))) :
    expand_dates spec cov now = .ok (dates.flatMap (expandDay · cov now)) ∧
    (dates.flatMap (expandDay · cov now)).Nodup := by
  have hm : now.minute < 60 := hnow.2.2.2.2.2.2.2.1
  exact ⟨by simp [expand_dates, hn, Except.map],
    flatMap_expandDay_nodup dates cov now hm
      (blockKeys_nodup dates cov now hval hnow hnd hcol)⟩

/-- Witness for the amended C9: the two-day range with full coverage
against a midday clock expands without duplicates. -/
theorem C9_expander_nodup_witness :
    expand_dates (.list [.s "2020-01-15", .s "2020-01-16"]) true
        ⟨2024, 1, 1, 12, 0, 0⟩ =
      .ok ([⟨2020, 1, 15, 0, 0, 0⟩, ⟨2020, 1, 16, 0, 0, 0⟩].flatMap
        (expandDay · true ⟨2024, 1, 1, 12, 0, 0⟩)) ∧
    ([⟨2020, 1, 15, 0, 0, 0⟩, ⟨2020, 1, 16, 0, 0, 0⟩].flatMap
      (expandDay · true ⟨2024, 1, 1, 12, 0, 0⟩)).Nodup :=
  C9_expander_nodup (.list [.s "2020-01-15", .s "2020-01-16"]) true
    ⟨2024, 1, 1, 12, 0, 0⟩ [⟨2020, 1, 15, 0, 0, 0⟩, ⟨2020, 1, 16, 0, 0, 0⟩]
    (by decide) (by decide) (by decide) (by decide) (by decide)
